import Mathlib

/-!
Verification development for a startup-trends analysis application.
The application (three Python modules: agents, app, ui) orchestrates a
fixed five-task sequential analysis pipeline for a topic, stores the
resulting text artifact in per-topic session state, builds a RAG index
over the artifact, and answers questions against it, recording each
question/answer turn in a per-topic chat transcript.

This file shallowly embeds the data model and the operations of the
source: pure string manipulation is translated directly; calls into
external services (the DuckDuckGo backend, article download, the model
backend, the embedding backend) are passed in as explicit arguments of
type Except (an error value models a raised exception); the mutable
Streamlit session state is modeled as an explicit state record that
operations transform.
-/

/-! Basic character-list string helpers.  They mirror Python string
primitives (substring test, str.replace, str.lower, slicing) and are
written as structural recursions so that concrete instances evaluate
by rfl or decide. -/

/-- Boolean test that the first list is a prefix of the second. -/
def isPrefixChars : List Char → List Char → Bool
  | [], _ => true
  | _ :: _, [] => false
  | p :: ps, c :: cs => p == c && isPrefixChars ps cs

/-- Boolean substring test on character lists: does pat occur in the list. -/
def containsChars (pat : List Char) : List Char → Bool
  | [] => isPrefixChars pat []
  | c :: cs => isPrefixChars pat (c :: cs) || containsChars pat cs

/-- Python in-operator on strings: substring containment. -/
def containsStr (s pat : String) : Bool :=
  containsChars pat.data s.data

/-- One fuel-indexed pass of left-to-right non-overlapping replacement of
pat by rep, mirroring Python str.replace.  Fuel at least the length of the
input list makes the scan reach the end. -/
def replaceChars (pat rep : List Char) : Nat → List Char → List Char
  | _, [] => []
  | 0, cs => cs
  | fuel + 1, c :: cs =>
    if isPrefixChars pat (c :: cs) then
      rep ++ replaceChars pat rep fuel (List.drop (pat.length - 1) cs)
    else
      c :: replaceChars pat rep fuel cs

/-- Python str.replace on strings. -/
def strReplace (s pat rep : String) : String :=
  ⟨replaceChars pat.data rep.data s.data.length s.data⟩

/-- Python str.lower, character by character. -/
def toLowerStr (s : String) : String :=
  ⟨s.data.map Char.toLower⟩

/-- Python slicing s[:n]. -/
def strTake (s : String) (n : Nat) : String :=
  ⟨s.data.take n⟩

/-- The apostrophe character as a one-character string. -/
def apos : String := String.singleton (Char.ofNat 39)


/-! Embedding of ask_question from app.py.  The per-topic chat transcript
is a list of role/content entries; the conversational retrieval chain is
an external backend modeled as an Except value whose error constructor
stands for a raised exception and whose ok payload is the answer field of
the returned dict (none when the key is absent). -/

/-- One entry of a chat transcript: a role (user or assistant) and its content. -/
structure ChatEntry where
  role : String
  content : String
deriving DecidableEq, Repr

/-- The deterministic fallback answer used when the backend result lacks an
answer field (the default of result.get in ask_question). -/
def fallbackAnswer : String :=
  "I couldn" ++ apos ++ "t find specific information about that in the analysis."

/-- Opening half of the highlight span wrapped around risk terms. -/
def spanOpen : String :=
  "<span style=" ++ apos ++ "color: #e53935; font-weight: bold;" ++ apos ++ ">"

/-- Closing half of the highlight span. -/
def spanClose : String := "</span>"

/-- The five terms highlighted in answers to risk questions. -/
def risks_terms : List String :=
  ["risk", "challenge", "uncertainty", "threat", "concern"]

/-- The condition guarding highlighting in ask_question: the lowercased
question contains the substring financial risk or the substring risks. -/
def riskCond (question : String) : Bool :=
  containsStr (toLowerStr question) "financial risk" ||
    containsStr (toLowerStr question) "risks"

/-- The replacement loop of ask_question over the five risk terms: each
term is replaced throughout the answer, left to right, by the term wrapped
in the highlight span. -/
def highlightTerms (answer : String) : String :=
  risks_terms.foldl (fun a t => strReplace a t (spanOpen ++ t ++ spanClose)) answer

/-- The highlighting step of ask_question: for risk questions, each of the
five terms is replaced throughout the answer by the term wrapped in a span;
otherwise the answer is untouched. -/
def highlightAnswer (question answer : String) : String :=
  if riskCond question then highlightTerms answer else answer

/-- Embedding of ask_question from app.py as a transcript transformer.
hasChain models whether the topic has an entry in the qa_chain map (the
early-return guard); backend models the call qa_chain(question): an error
is a raised exception (caught, leaving the transcript as already mutated),
an ok payload is the optional answer field of the result dict.  The user
entry is appended before the backend call; the assistant entry, built from
the answer field with the fallback default and then highlighted, is
appended only on success. -/
def ask_question (hasChain : Bool) (question : String) (hist : List ChatEntry)
    (backend : Except String (Option String)) : List ChatEntry :=
  if hasChain then
    let hist1 := hist ++ [⟨"user", question⟩]
    match backend with
    | .error _ => hist1
    | .ok ans =>
      let answer := highlightAnswer question (ans.getD fallbackAnswer)
      hist1 ++ [⟨"assistant", answer⟩]
  else
    hist


/-! Embedding of the capability tools of agents.py. -/

/-- One raw result of the DuckDuckGo backend: its optional href field
(none when the key is absent; the empty string is a present-but-falsy
value, filtered out like an absent one by the truthiness test). -/
structure SearchResult where
  href : Option String
deriving DecidableEq, Repr

/-- The list comprehension of duckduckgo_search: the hrefs of the results
whose href field is present and truthy. -/
def validUrls (results : List SearchResult) : List String :=
  results.filterMap fun r =>
    match r.href with
    | some h => if h = "" then none else some h
    | none => none

/-- Embedding of duckduckgo_search from agents.py.  The DDGS backend call
(ddg.text with max_results 8) is modeled by the backend argument: an error
is a raised exception, caught and turned into a one-element diagnostic
list; an ok payload is the raw result list.  The valid hrefs are
collected; an empty collection gives the one-element no-results
diagnostic. -/
def duckduckgo_search (backend : Except String (List SearchResult)) : List String :=
  match backend with
  | .error e => ["Error performing search: " ++ e]
  | .ok results =>
    if validUrls results = [] then ["No valid search results found."]
    else validUrls results

/-- Embedding of fetch_article from agents.py.  urlparse is modeled by
passing the scheme and netloc components alongside the raw url string; the
article download and parse is the backend argument (an error is a raised
exception, an ok payload is the parsed article text).  The scheme and
netloc are checked before the backend is consulted; fetched content is
returned truncated to 3000 characters only when it is truthy and longer
than 50 characters, and a diagnostic string is returned in every other
case. -/
def fetch_article (scheme netloc url : String)
    (backend : Except String String) : String :=
  if scheme = "" then "Invalid URL format: " ++ url
  else if netloc = "" then "Invalid URL format: " ++ url
  else
    match backend with
    | .error e => "Error fetching content from " ++ url ++ ": " ++ e
    | .ok content =>
      if content ≠ "" ∧ 50 < content.length then strTake content 3000
      else "Insufficient content from " ++ url


/-! Embedding of the result-to-text coercions of agents.py: the crew
kickoff result in run_analysis and the content argument in
setup_rag_system are duck-typed objects probed with hasattr. -/

/-- A structured result object as probed by run_analysis: an optional raw
field, an optional output field, and the generic str rendering used when
both are absent.  A some value of a field is the str rendering of that
attribute on the object. -/
structure CrewResult where
  raw : Option String
  output : Option String
  asStr : String
deriving DecidableEq, Repr

/-- Embedding of the result coercion of run_analysis (agents.py): prefer
the raw field, then the output field, then the generic str conversion. -/
def coerceResult (r : CrewResult) : String :=
  match r.raw with
  | some s => s
  | none =>
    match r.output with
    | some s => s
    | none => r.asStr

/-- The content argument of setup_rag_system: either already a string, or
a wrapped object probed for raw and output attributes with a generic str
fallback. -/
inductive Content where
  | str (s : String)
  | wrapped (raw output : Option String) (asStr : String)
deriving DecidableEq, Repr

/-- Embedding of the content coercion at the top of setup_rag_system
(agents.py): a string is kept as is; otherwise the raw attribute is
preferred, then the output attribute, then the generic str conversion. -/
def contentToString : Content → String
  | .str s => s
  | .wrapped (some r) _ _ => r
  | .wrapped none (some o) _ => o
  | .wrapped none none d => d

/-! Embedding of the five-task pipeline of run_analysis (agents.py). -/

/-- The five tasks constructed by run_analysis, in construction order. -/
inductive TaskId where
  | marketResearch
  | competitorAnalysis
  | businessStrategy
  | financialInsights
  | finalReport
deriving DecidableEq, BEq, Repr

/-- The context lists of the five Task constructions in run_analysis: the
tasks whose outputs are provided as input context.  market_research has no
context argument; the others list their dependencies exactly as in the
source. -/
def dependsOn : TaskId → List TaskId
  | .marketResearch => []
  | .competitorAnalysis => [.marketResearch]
  | .businessStrategy => [.marketResearch, .competitorAnalysis]
  | .financialInsights => [.marketResearch, .businessStrategy]
  | .finalReport =>
    [.marketResearch, .competitorAnalysis, .businessStrategy, .financialInsights]

/-- The tasks list passed to the Crew constructor in run_analysis, in its
declared order. -/
def taskOrder : List TaskId :=
  [.marketResearch, .competitorAnalysis, .businessStrategy,
   .financialInsights, .finalReport]

/-- Position of a task in a task list (first match). -/
def posIn (t : TaskId) : List TaskId → Nat
  | [] => 0
  | x :: xs => if x == t then 0 else posIn t xs + 1

/-- Modelled from the spec: the Crew executor (crewai, external to this
repository) with process set to Process.sequential runs the tasks one at a
time in the declared list order, each task receiving the recorded outputs
of the tasks in its context list; the backend argument models one model
invocation producing a task output from the task and its context.  The
trace records, for each executed task, the context it received and the
output it produced. -/
def runSeq (backend : TaskId → List String → String) :
    List (TaskId × List String × String) :=
  taskOrder.foldl
    (fun trace t =>
      let ctx := (dependsOn t).filterMap fun d =>
        (trace.find? fun e => e.1 == d).map fun e => e.2.2
      trace ++ [(t, ctx, backend t ctx)])
    []

/-- Embedding of run_analysis (agents.py) at its failure boundary: the
body runs under one try block; the crew kickoff (and everything before it)
is modeled by the kickoff argument.  A raised exception is caught, logged,
displayed, and the function returns None; on success the result object is
coerced to text and returned. -/
def run_analysis (kickoff : Except String CrewResult) : Option String :=
  match kickoff with
  | .error _ => none
  | .ok r => some (coerceResult r)

/-! Embedding of the RAG setup of agents.py and the session state of
app.py. -/

/-- Errors of the RAG setup stage. -/
inductive RagError where
  | EmptyArtifact
  | RagSetupFailure (cause : String)
deriving DecidableEq, Repr

/-- Modelled from the spec: the text splitter used by setup_rag_system
(RecursiveCharacterTextSplitter of langchain, external to this repository,
configured with chunk_size 1000 and chunk_overlap 200) is modeled per the
spec as a greedy splitter: a text of at most chunk_size characters is one
chunk; a longer text contributes its first chunk_size characters and
recurses on the remainder starting chunk_size minus chunk_overlap
characters further, so consecutive chunks overlap by chunk_overlap.  Fuel
at least the length of the input bounds the recursion. -/
def splitChars : Nat → List Char → List (List Char)
  | _, [] => []
  | 0, cs => [cs]
  | fuel + 1, c :: cs =>
    if (c :: cs).length ≤ 1000 then [c :: cs]
    else (c :: cs).take 1000 :: splitChars fuel (List.drop 799 cs)

/-- Splitting a string artifact into chunks. -/
def splitText (s : String) : List String :=
  (splitChars s.data.length s.data).map fun cs => ⟨cs⟩

/-- Modelled from the spec: build_index is the chunking step of
setup_rag_system; an empty chunk list (exactly the empty input) cannot be
indexed and is the EmptyArtifact error, a nonempty chunk list becomes the
index content. -/
def build_index (s : String) : Except RagError (List String) :=
  let chunks := splitText s
  if chunks = [] then .error .EmptyArtifact else .ok chunks


/-- The Streamlit session state of app.py restricted to the fields the
claims are about: the four per-topic maps initialized by
init_session_state.  Vector stores and QA chains are opaque handles,
modeled by natural-number identities. -/
structure AppState where
  saved_analyses : String → Option String
  vectorstore : String → Option Nat
  qa_chain : String → Option Nat
  chat_history : String → Option (List ChatEntry)

/-- Pointwise update of a per-topic map. -/
def updateMap {α : Type} (m : String → Option α) (k : String) (v : α) :
    String → Option α :=
  fun q => if q = k then some v else m q

/-- Embedding of setup_rag_system (agents.py) as a state transformer.  The
content argument is coerced to a string, split into chunks, and the chunks
are handed to the external embedding, vector store and chain construction
backends, modeled by the rag argument (an error is a raised exception
anywhere before the session-state writes).  Every fallible operation of
the body precedes the three session-state writes, so a caught exception
leaves the state untouched (the function logs, shows the error, and
returns None); on success the vector store and qa chain handles are stored
under the topic and an empty chat history is created for the topic if none
exists. -/
def setup_rag_system (st : AppState) (topic : String) (content : Content)
    (rag : List String → Except String (Nat × Nat)) : AppState :=
  match build_index (contentToString content) with
  | .error _ => st
  | .ok chunks =>
    match rag chunks with
    | .error _ => st
    | .ok (vs, qa) =>
      let st1 : AppState :=
        { st with
          vectorstore := updateMap st.vectorstore topic vs
          qa_chain := updateMap st.qa_chain topic qa }
      match st1.chat_history topic with
      | some _ => st1
      | none =>
        { st1 with chat_history := updateMap st1.chat_history topic [] }

/-- Embedding of the post-analysis steps of main (app.py): when
run_analysis returns a truthy result, the artifact is stored in
saved_analyses under the topic first, and setup_rag_system runs after. -/
def handleAnalysisSuccess (st : AppState) (topic artifact : String)
    (rag : List String → Except String (Nat × Nat)) : AppState :=
  let st1 : AppState :=
    { st with saved_analyses := updateMap st.saved_analyses topic artifact }
  setup_rag_system st1 topic (.str artifact) rag

/-- Initial session state: every per-topic map empty. -/
def emptyAppState : AppState :=
  ⟨fun _ => none, fun _ => none, fun _ => none, fun _ => none⟩

/-- A RAG backend whose embedding step raises. -/
def failingRag : List String → Except String (Nat × Nat) :=
  fun _ => .error "embedding backend failure"

/-! Supporting lemmas about the string helpers. -/

theorem isPrefixChars_length {pat l : List Char}
    (h : isPrefixChars pat l = true) : pat.length ≤ l.length := by
  induction pat generalizing l with
  | nil => simp
  | cons p ps ih =>
    cases l with
    | nil => simp [isPrefixChars] at h
    | cons c cs =>
      simp only [isPrefixChars, Bool.and_eq_true] at h
      simpa using Nat.succ_le_succ (ih h.2)

theorem replaceChars_length_ge (pat rep : List Char) (hp : pat ≠ [])
    (hlen : pat.length ≤ rep.length) :
    ∀ (fuel : Nat) (cs : List Char),
      cs.length ≤ (replaceChars pat rep fuel cs).length := by
  have hp1 : 1 ≤ pat.length := by
    cases pat with
    | nil => exact absurd rfl hp
    | cons x xs => simp
  intro fuel
  induction fuel with
  | zero => intro cs; cases cs <;> simp [replaceChars]
  | succ n ih =>
    intro cs
    cases cs with
    | nil => simp [replaceChars]
    | cons c cs =>
      simp only [replaceChars]
      split
      · rename_i hpre
        have hple : pat.length ≤ cs.length + 1 := by
          simpa using isPrefixChars_length hpre
        have h1 := ih (List.drop (pat.length - 1) cs)
        simp only [List.length_append, List.length_drop] at h1 ⊢
        simp only [List.length_cons]
        omega
      · have h1 := ih cs
        simp only [List.length_cons]
        omega

theorem replaceChars_length_gt (pat rep : List Char) (hp : pat ≠ [])
    (hlen : pat.length < rep.length) :
    ∀ (fuel : Nat) (cs : List Char), cs.length ≤ fuel →
      containsChars pat cs = true →
      cs.length < (replaceChars pat rep fuel cs).length := by
  have hp1 : 1 ≤ pat.length := by
    cases pat with
    | nil => exact absurd rfl hp
    | cons x xs => simp
  have hnil : containsChars pat [] = false := by
    cases pat with
    | nil => exact absurd rfl hp
    | cons x xs => simp [containsChars, isPrefixChars]
  intro fuel
  induction fuel with
  | zero =>
    intro cs hle hc
    have : cs = [] := List.eq_nil_of_length_eq_zero (Nat.le_zero.mp hle)
    rw [this, hnil] at hc
    exact absurd hc (by simp)
  | succ n ih =>
    intro cs hle hc
    cases cs with
    | nil => rw [hnil] at hc; exact absurd hc (by simp)
    | cons c cs =>
      simp only [replaceChars]
      split
      · rename_i hpre
        have hple : pat.length ≤ cs.length + 1 := by
          simpa using isPrefixChars_length hpre
        have h1 := replaceChars_length_ge pat rep hp (Nat.le_of_lt hlen) n
          (List.drop (pat.length - 1) cs)
        simp only [List.length_append, List.length_drop] at h1 ⊢
        simp only [List.length_cons]
        omega
      · rename_i hpre
        have hc2 : containsChars pat cs = true := by
          simp only [containsChars, Bool.or_eq_true] at hc
          cases hc with
          | inl h => exact absurd h (by simp [hpre])
          | inr h => exact h
        have h1 := ih cs (by simpa using Nat.le_of_succ_le_succ hle) hc2
        simp only [List.length_cons]
        omega

theorem replaceChars_not_contains (pat rep : List Char)
    (fuel : Nat) :
    ∀ cs : List Char, containsChars pat cs = false →
      replaceChars pat rep fuel cs = cs := by
  induction fuel with
  | zero => intro cs _; cases cs <;> simp [replaceChars]
  | succ n ih =>
    intro cs hc
    cases cs with
    | nil => simp [replaceChars]
    | cons c cs =>
      simp only [containsChars, Bool.or_eq_false_iff] at hc
      simp [replaceChars, hc.1, ih cs hc.2]

theorem string_data_nil (s : String) (h : s ≠ "") : s.data ≠ [] := by
  intro hd
  apply h
  cases s with
  | mk data =>
    rw [show data = [] from hd]

theorem strReplace_length_ge (s t rep : String) (ht : t ≠ "")
    (hlen : t.length ≤ rep.length) :
    s.length ≤ (strReplace s t rep).length := by
  show s.data.length ≤ (replaceChars t.data rep.data s.data.length s.data).length
  exact replaceChars_length_ge t.data rep.data (string_data_nil t ht) hlen
    s.data.length s.data

theorem strReplace_length_gt (s t rep : String) (ht : t ≠ "")
    (hlen : t.length < rep.length) (hc : containsStr s t = true) :
    s.length < (strReplace s t rep).length := by
  show s.data.length < (replaceChars t.data rep.data s.data.length s.data).length
  exact replaceChars_length_gt t.data rep.data (string_data_nil t ht) hlen
    s.data.length s.data (Nat.le_refl _) hc

theorem strReplace_not_contains (s t rep : String)
    (hc : containsStr s t = false) : strReplace s t rep = s := by
  have h := replaceChars_not_contains t.data rep.data s.data.length s.data hc
  show String.mk (replaceChars t.data rep.data s.data.length s.data) = s
  rw [h]

theorem span_length_gt (t : String) :
    t.length < (spanOpen ++ t ++ spanClose).length := by
  rw [String.length_append, String.length_append]
  have h : 0 < spanOpen.length := by decide
  omega

theorem foldl_terms_length_ge (ts : List String) :
    ∀ a : String, (∀ t ∈ ts, t ≠ "") →
      a.length ≤
        (ts.foldl (fun x t => strReplace x t (spanOpen ++ t ++ spanClose)) a).length := by
  induction ts with
  | nil => intro a _; simp
  | cons t ts ih =>
    intro a h
    simp only [List.foldl_cons]
    have h1 := strReplace_length_ge a t (spanOpen ++ t ++ spanClose)
      (h t (by simp)) (Nat.le_of_lt (span_length_gt t))
    have h2 := ih (strReplace a t (spanOpen ++ t ++ spanClose))
      (fun u hu => h u (by simp [hu]))
    omega

theorem foldl_terms_length_gt (ts : List String) :
    ∀ a : String, (∀ t ∈ ts, t ≠ "") →
      (∃ t ∈ ts, containsStr a t = true) →
      a.length <
        (ts.foldl (fun x t => strReplace x t (spanOpen ++ t ++ spanClose)) a).length := by
  induction ts with
  | nil => intro a _ hex; simp at hex
  | cons t ts ih =>
    intro a hne hex
    simp only [List.foldl_cons]
    by_cases hc : containsStr a t = true
    · have h1 := strReplace_length_gt a t (spanOpen ++ t ++ spanClose)
        (hne t (by simp)) (span_length_gt t) hc
      have h2 := foldl_terms_length_ge ts (strReplace a t (spanOpen ++ t ++ spanClose))
        (fun u hu => hne u (by simp [hu]))
      omega
    · have hc2 : containsStr a t = false := by
        revert hc; cases containsStr a t <;> simp
      rw [strReplace_not_contains a t _ hc2]
      apply ih a (fun u hu => hne u (by simp [hu]))
      obtain ⟨u, hu, hcu⟩ := hex
      simp only [List.mem_cons] at hu
      cases hu with
      | inl h => rw [h] at hcu; rw [hc2] at hcu; exact absurd hcu (by simp)
      | inr h => exact ⟨u, h, hcu⟩

theorem foldl_terms_unchanged (ts : List String) :
    ∀ a : String, (∀ t ∈ ts, containsStr a t = false) →
      ts.foldl (fun x t => strReplace x t (spanOpen ++ t ++ spanClose)) a = a := by
  induction ts with
  | nil => intro a _; rfl
  | cons t ts ih =>
    intro a h
    simp only [List.foldl_cons]
    rw [strReplace_not_contains a t _ (h t (by simp))]
    exact ih a (fun u hu => h u (by simp [hu]))

theorem highlightTerms_ne (a : String)
    (h : ∃ t ∈ risks_terms, containsStr a t = true) :
    highlightTerms a ≠ a := by
  have hne : ∀ t ∈ risks_terms, t ≠ "" := by decide
  have hlt := foldl_terms_length_gt risks_terms a hne h
  intro heq
  rw [show (risks_terms.foldl (fun x t => strReplace x t (spanOpen ++ t ++ spanClose)) a)
      = a from heq] at hlt
  exact Nat.lt_irrefl _ hlt

theorem highlightTerms_id (a : String)
    (h : ∀ t ∈ risks_terms, containsStr a t = false) :
    highlightTerms a = a :=
  foldl_terms_unchanged risks_terms a h

theorem highlight_fallback (q : String) :
    highlightAnswer q fallbackAnswer = fallbackAnswer := by
  unfold highlightAnswer
  split
  · exact highlightTerms_id fallbackAnswer (by decide)
  · rfl

/-! Claim theorems. -/

/-- C1, counterexample: a failing turn does add an entry.  With an empty
transcript and a backend that raises, ask_question leaves a dangling user
entry and the transcript length is odd, contradicting the claim that on
failure no entry is added and the length stays even. -/
theorem ask_question_dangling_user_entry :
    ask_question true "q" [] (.error "backend failure") = [⟨"user", "q"⟩] ∧
    (ask_question true "q" [] (.error "backend failure")).length = 1 := by
  decide

/-- C1, amended: the user entry is appended before the backend call, so a
failed turn leaves exactly the dangling user entry (transcript length
becomes odd); a successful turn appends both the user entry and its paired
assistant entry, growing the transcript by exactly 2 and preserving even
length; without an initialized chain the transcript is untouched. -/
theorem ask_question_turn_shape (q : String) (hist : List ChatEntry)
    (backend : Except String (Option String)) :
    (∀ e, backend = .error e →
      ask_question true q hist backend = hist ++ [⟨"user", q⟩]) ∧
    (∀ a, backend = .ok a →
      ask_question true q hist backend =
        hist ++ [⟨"user", q⟩,
                 ⟨"assistant", highlightAnswer q (a.getD fallbackAnswer)⟩] ∧
      (ask_question true q hist backend).length = hist.length + 2) ∧
    ask_question false q hist backend = hist := by
  refine ⟨?_, ?_, rfl⟩
  · intro e he
    subst he
    rfl
  · intro a ha
    subst ha
    constructor
    · show (hist ++ ([⟨"user", q⟩] : List ChatEntry)) ++
          [⟨"assistant", highlightAnswer q (a.getD fallbackAnswer)⟩] = _
      simp
    · show ((hist ++ ([⟨"user", q⟩] : List ChatEntry)) ++
          ([⟨"assistant", highlightAnswer q (a.getD fallbackAnswer)⟩] :
            List ChatEntry)).length = hist.length + 2
      simp

/-- C1, witness: the amended theorem applied at concrete inputs. -/
theorem ask_question_turn_shape_witness :
    ask_question true "q1" [] (.error "model failure") = [⟨"user", "q1"⟩] ∧
    ask_question true "q2" [] (.ok (some "ans")) =
      [⟨"user", "q2"⟩,
       ⟨"assistant", highlightAnswer "q2" ((some "ans").getD fallbackAnswer)⟩] :=
  ⟨(ask_question_turn_shape "q1" [] (.error "model failure")).1 "model failure" rfl,
   ((ask_question_turn_shape "q2" [] (.ok (some "ans"))).2.1 (some "ans") rfl).1⟩

/-- C2, counterexample: on a backend exception run_analysis returns None,
which is the same value for every cause, so no structured error carrying
the failing stage and cause reaches the caller: no function can recover
the cause from the returned value. -/
theorem run_analysis_error_anonymity :
    run_analysis (.error "model backend failure") = none ∧
    run_analysis (.error "tool failure") = none ∧
    ¬ ∃ f : Option String → String,
        ∀ e : String, f (run_analysis (.error e)) = e := by
  refine ⟨rfl, rfl, ?_⟩
  rintro ⟨f, hf⟩
  have h1 := hf "model backend failure"
  have h2 := hf "tool failure"
  rw [show run_analysis (.error "model backend failure") = none from rfl] at h1
  rw [show run_analysis (.error "tool failure") = none from rfl] at h2
  rw [h1] at h2
  exact absurd h2 (by decide)

/-- C2, amended: any exception raised inside the run_analysis body aborts
the whole run and the caller receives None — no partial artifact; the
error is logged and displayed as a side effect only, not returned as a
structured value.  On success the coerced final result is returned. -/
theorem run_analysis_abort_semantics :
    (∀ e, run_analysis (.error e) = none) ∧
    (∀ r, run_analysis (.ok r) = some (coerceResult r)) :=
  ⟨fun _ => rfl, fun _ => rfl⟩

/-- C2, witness: the amended theorem applied at concrete inputs. -/
theorem run_analysis_abort_semantics_witness :
    run_analysis (.error "boom") = none ∧
    run_analysis (.ok ⟨some "report", none, "obj"⟩) =
      some (coerceResult ⟨some "report", none, "obj"⟩) :=
  ⟨run_analysis_abort_semantics.1 "boom",
   run_analysis_abort_semantics.2 ⟨some "report", none, "obj"⟩⟩

/-- C3, counterexample: content of exactly 50 characters is not shorter
than 50 characters, yet fetch_article returns the insufficient-content
diagnostic instead of the content, because the source condition requires
strictly more than 50 characters. -/
theorem fetch_article_boundary_counterexample :
    (String.mk (List.replicate 50 'a')).length = 50 ∧
    fetch_article "http" "example.com" "http://example.com"
        (.ok (String.mk (List.replicate 50 'a'))) =
      "Insufficient content from http://example.com" ∧
    fetch_article "http" "example.com" "http://example.com"
        (.ok (String.mk (List.replicate 50 'a'))) ≠
      String.mk (List.replicate 50 'a') := by
  decide

/-- C3, amended: fetch_article always returns a string and never raises;
a URL missing its scheme or host is rejected with a diagnostic before the
download backend is consulted; a backend exception yields a diagnostic;
fetched content is returned (truncated to at most 3000 characters) exactly
when it is strictly longer than 50 characters, and content of at most 50
characters (insufficient) yields a diagnostic instead. -/
theorem fetch_article_safety (scheme netloc url : String)
    (backend : Except String String) :
    ((scheme = "" ∨ netloc = "") →
      fetch_article scheme netloc url backend = "Invalid URL format: " ++ url) ∧
    (∀ e, backend = .error e → scheme ≠ "" → netloc ≠ "" →
      fetch_article scheme netloc url backend =
        "Error fetching content from " ++ url ++ ": " ++ e) ∧
    (∀ c, backend = .ok c → scheme ≠ "" → netloc ≠ "" →
      (50 < c.length →
        fetch_article scheme netloc url backend = strTake c 3000 ∧
        (strTake c 3000).length ≤ 3000) ∧
      (c.length ≤ 50 →
        fetch_article scheme netloc url backend =
          "Insufficient content from " ++ url)) := by
  refine ⟨?_, ?_, ?_⟩
  · rintro (h | h)
    · simp [fetch_article, h]
    · by_cases hs : scheme = "" <;> simp [fetch_article, hs, h]
  · intro e he hs hn
    subst he
    simp [fetch_article, hs, hn]
  · intro c hc hs hn
    subst hc
    constructor
    · intro h50
      have hcne : c ≠ "" := by
        intro h0
        rw [h0] at h50
        exact absurd h50 (by decide)
      constructor
      · simp [fetch_article, hs, hn, hcne, h50]
      · show (c.data.take 3000).length ≤ 3000
        exact List.length_take_le 3000 c.data
    · intro h50
      by_cases hcne : c = ""
      · simp [fetch_article, hs, hn, hcne]
      · have hnlt : ¬ (50 < c.length) := Nat.not_lt.mpr h50
        simp [fetch_article, hs, hn, hcne, hnlt]

/-- C3, witness: the amended theorem applied at concrete inputs. -/
theorem fetch_article_safety_witness :
    fetch_article "" "h" "u" (.ok "text") = "Invalid URL format: u" ∧
    fetch_article "https" "h" "u" (.error "timeout") =
      "Error fetching content from u: timeout" ∧
    fetch_article "https" "h" "u" (.ok (String.mk (List.replicate 60 'b'))) =
      strTake (String.mk (List.replicate 60 'b')) 3000 :=
  ⟨(fetch_article_safety "" "h" "u" (.ok "text")).1 (Or.inl rfl),
   (fetch_article_safety "https" "h" "u" (.error "timeout")).2.1 "timeout" rfl
     (by decide) (by decide),
   (((fetch_article_safety "https" "h" "u"
         (.ok (String.mk (List.replicate 60 'b')))).2.2
       (String.mk (List.replicate 60 'b')) rfl (by decide) (by decide)).1
     (by decide)).1⟩

/-- C4, counterexample: when the backend returns a present but empty
answer field, the recorded assistant content is the empty string, not the
deterministic fallback, because the dict lookup default fires only on a
missing key. -/
theorem ask_question_empty_answer_recorded :
    ask_question true "hello" [] (.ok (some "")) =
      [⟨"user", "hello"⟩, ⟨"assistant", ""⟩] ∧
    fallbackAnswer ≠ "" := by
  decide

/-- C4, amended: the deterministic fallback string is returned and
recorded exactly when the backend result has no answer field; a present
answer field is recorded as is (after highlighting), even when it is the
empty string.  The recorded answer is never absent. -/
theorem ask_question_fallback_on_missing (q : String) (hist : List ChatEntry) :
    ask_question true q hist (.ok none) =
      hist ++ [⟨"user", q⟩, ⟨"assistant", fallbackAnswer⟩] ∧
    (∀ s, ask_question true q hist (.ok (some s)) =
      hist ++ [⟨"user", q⟩, ⟨"assistant", highlightAnswer q s⟩]) := by
  constructor
  · show (hist ++ [⟨"user", q⟩]) ++
        [⟨"assistant", highlightAnswer q fallbackAnswer⟩] = _
    rw [highlight_fallback]
    simp
  · intro s
    show (hist ++ [⟨"user", q⟩]) ++
        [⟨"assistant", highlightAnswer q s⟩] = _
    simp

/-- C4, witness: the amended theorem applied at concrete inputs. -/
theorem ask_question_fallback_on_missing_witness :
    ask_question true "what is this?" [] (.ok none) =
      [⟨"user", "what is this?"⟩, ⟨"assistant", fallbackAnswer⟩] ∧
    ask_question true "what is this?" [] (.ok (some "an answer")) =
      [⟨"user", "what is this?"⟩,
       ⟨"assistant", highlightAnswer "what is this?" "an answer"⟩] :=
  ⟨(ask_question_fallback_on_missing "what is this?" []).1,
   (ask_question_fallback_on_missing "what is this?" []).2 "an answer"⟩

/-- C5: the five tasks are constructed with exactly the fixed dependency
lists of the spec, every dependency of a task strictly precedes that task
in the declared sequential order (so no task begins before its
dependencies complete), and the sequential execution trace gives every
task, as input context, exactly the full outputs of its declared
dependencies in declared order. -/
theorem run_analysis_task_graph_sequential
    (backend : TaskId → List String → String) :
    (dependsOn .marketResearch = [] ∧
     dependsOn .competitorAnalysis = [.marketResearch] ∧
     dependsOn .businessStrategy = [.marketResearch, .competitorAnalysis] ∧
     dependsOn .financialInsights = [.marketResearch, .businessStrategy] ∧
     dependsOn .finalReport =
       [.marketResearch, .competitorAnalysis, .businessStrategy,
        .financialInsights]) ∧
    (taskOrder.all fun t => (dependsOn t).all fun d =>
        Nat.blt (posIn d taskOrder) (posIn t taskOrder)) = true ∧
    (let o1 := backend .marketResearch [];
     let o2 := backend .competitorAnalysis [o1];
     let o3 := backend .businessStrategy [o1, o2];
     let o4 := backend .financialInsights [o1, o3];
     runSeq backend =
       [(.marketResearch, [], o1),
        (.competitorAnalysis, [o1], o2),
        (.businessStrategy, [o1, o2], o3),
        (.financialInsights, [o1, o3], o4),
        (.finalReport, [o1, o2, o3, o4],
         backend .finalReport [o1, o2, o3, o4])]) :=
  ⟨⟨rfl, rfl, rfl, rfl, rfl⟩, rfl, rfl⟩

/-- C5, witness: the theorem applied at a constant backend. -/
theorem run_analysis_task_graph_sequential_witness :
    runSeq (fun _ _ => "out") =
      [(.marketResearch, [], "out"),
       (.competitorAnalysis, ["out"], "out"),
       (.businessStrategy, ["out", "out"], "out"),
       (.financialInsights, ["out", "out"], "out"),
       (.finalReport, ["out", "out", "out", "out"], "out")] :=
  (run_analysis_task_graph_sequential (fun _ _ => "out")).2.2

/-- C6: both result-to-text coercions (the kickoff result in run_analysis
and the content argument in setup_rag_system) are total functions and
follow the defined precedence: the raw field when present, else the
output field when present, else the generic string conversion; a content
argument that is already a string is kept as is. -/
theorem result_coercion_precedence_total :
    (∀ (o : Option String) (d r : String), coerceResult ⟨some r, o, d⟩ = r) ∧
    (∀ (d o : String), coerceResult ⟨none, some o, d⟩ = o) ∧
    (∀ d : String, coerceResult ⟨none, none, d⟩ = d) ∧
    (∀ s : String, contentToString (.str s) = s) ∧
    (∀ (o : Option String) (d r : String),
      contentToString (.wrapped (some r) o d) = r) ∧
    (∀ (d o : String), contentToString (.wrapped none (some o) d) = o) ∧
    (∀ d : String, contentToString (.wrapped none none d) = d) :=
  ⟨fun _ _ _ => rfl, fun _ _ => rfl, fun _ => rfl, fun _ => rfl,
   fun _ _ _ => rfl, fun _ _ => rfl, fun _ => rfl⟩

/-- C6, witness: the coercions evaluated at concrete result objects. -/
theorem result_coercion_precedence_total_witness :
    coerceResult ⟨some "raw text", some "output text", "generic"⟩ = "raw text" ∧
    coerceResult ⟨none, some "output text", "generic"⟩ = "output text" ∧
    coerceResult ⟨none, none, "generic"⟩ = "generic" ∧
    contentToString (.wrapped none (some "output text") "generic") = "output text" :=
  ⟨result_coercion_precedence_total.1 (some "output text") "generic" "raw text",
   result_coercion_precedence_total.2.1 "generic" "output text",
   result_coercion_precedence_total.2.2.1 "generic",
   result_coercion_precedence_total.2.2.2.2.2.1 "generic" "output text"⟩

/-- C7: duckduckgo_search never raises; given that the DDGS backend honors
max_results 8 (at most 8 raw results), the returned list is nonempty, has
at most 8 entries, is the single error diagnostic on a raised exception,
and is the single no-results diagnostic when no valid hrefs are found. -/
theorem duckduckgo_search_safety (backend : Except String (List SearchResult))
    (h8 : ∀ rs, backend = .ok rs → rs.length ≤ 8) :
    duckduckgo_search backend ≠ [] ∧
    (duckduckgo_search backend).length ≤ 8 ∧
    (∀ e, backend = .error e →
      duckduckgo_search backend = ["Error performing search: " ++ e]) ∧
    (∀ rs, backend = .ok rs → validUrls rs = [] →
      duckduckgo_search backend = ["No valid search results found."]) := by
  cases backend with
  | error e =>
    refine ⟨by simp [duckduckgo_search], by simp [duckduckgo_search], ?_, ?_⟩
    · intro e2 he
      cases he
      rfl
    · intro rs hrs
      exact absurd hrs (by simp)
  | ok rs =>
    have hlen : rs.length ≤ 8 := h8 rs rfl
    have hv : (validUrls rs).length ≤ rs.length :=
      List.length_filterMap_le _ _
    by_cases hurls : validUrls rs = []
    · refine ⟨by simp [duckduckgo_search, hurls], by simp [duckduckgo_search, hurls], ?_, ?_⟩
      · intro e he
        exact absurd he (by simp)
      · intro rs2 hrs2 _
        cases hrs2
        simp [duckduckgo_search, hurls]
    · refine ⟨by simp [duckduckgo_search, hurls], ?_, ?_, ?_⟩
      · show (duckduckgo_search (.ok rs)).length ≤ 8
        have : duckduckgo_search (.ok rs) = validUrls rs := by
          simp [duckduckgo_search, hurls]
        rw [this]
        omega
      · intro e he
        exact absurd he (by simp)
      · intro rs2 hrs2 hv2
        cases hrs2
        exact absurd hv2 hurls

/-- C7, witness: the theorem applied at a failing backend and at a
successful backend with one valid result. -/
theorem duckduckgo_search_safety_witness :
    duckduckgo_search (.error "rate limited") =
      ["Error performing search: rate limited"] ∧
    duckduckgo_search (.ok [⟨some "https://example.com"⟩]) ≠ [] ∧
    (duckduckgo_search (.ok [⟨some "https://example.com"⟩])).length ≤ 8 :=
  ⟨(duckduckgo_search_safety (.error "rate limited")
      (fun rs h => by cases h)).2.2.1 "rate limited" rfl,
   (duckduckgo_search_safety (.ok [⟨some "https://example.com"⟩])
      (fun rs h => by cases h; decide)).1,
   (duckduckgo_search_safety (.ok [⟨some "https://example.com"⟩])
      (fun rs h => by cases h; decide)).2.1⟩

/-- C8: the chunking step of the RAG setup (chunk size 1000, overlap 200)
produces at least one chunk for every non-empty input; empty input yields
the EmptyArtifact error instead of an index; and the input short text
yields an index of exactly one chunk. -/
theorem build_index_chunking :
    (∀ s : String, s ≠ "" →
      ∃ chunks, build_index s = .ok chunks ∧ 1 ≤ chunks.length) ∧
    build_index "" = .error .EmptyArtifact ∧
    build_index "short text" = .ok ["short text"] := by
  refine ⟨?_, rfl, rfl⟩
  intro s hs
  have hd := string_data_nil s hs
  have hsp : splitText s ≠ [] := by
    unfold splitText
    cases hdata : s.data with
    | nil => exact absurd hdata hd
    | cons c cs =>
      simp only [hdata, List.length_cons, splitChars]
      split <;> simp
  refine ⟨splitText s, ?_, ?_⟩
  · unfold build_index
    simp [hsp]
  · exact List.length_pos.mpr hsp

/-- C8, witness: the theorem applied at a one-character input, plus its
closed scenario conjuncts. -/
theorem build_index_chunking_witness :
    (∃ chunks, build_index "x" = .ok chunks ∧ 1 ≤ chunks.length) ∧
    build_index "" = .error .EmptyArtifact ∧
    build_index "short text" = .ok ["short text"] :=
  ⟨build_index_chunking.1 "x" (by decide),
   build_index_chunking.2.1, build_index_chunking.2.2⟩

/-- C9: when RAG setup fails (empty artifact, or an embedding, indexing or
chain-construction exception), the session state is otherwise untouched:
the artifact stored for the topic before the setup remains retrievable,
the vectorstore, qa_chain and chat_history maps are completely unchanged
(for this topic and all others), and the stored artifacts of other topics
are unaffected. -/
theorem rag_failure_isolation (st : AppState) (topic artifact : String)
    (rag : List String → Except String (Nat × Nat))
    (h : build_index artifact = .error .EmptyArtifact ∨
         ∃ chunks e, build_index artifact = .ok chunks ∧ rag chunks = .error e) :
    (handleAnalysisSuccess st topic artifact rag).saved_analyses topic =
      some artifact ∧
    (handleAnalysisSuccess st topic artifact rag).vectorstore =
      st.vectorstore ∧
    (handleAnalysisSuccess st topic artifact rag).qa_chain = st.qa_chain ∧
    (handleAnalysisSuccess st topic artifact rag).chat_history =
      st.chat_history ∧
    (∀ t, t ≠ topic →
      (handleAnalysisSuccess st topic artifact rag).saved_analyses t =
        st.saved_analyses t) := by
  have hstep : handleAnalysisSuccess st topic artifact rag =
      { st with saved_analyses := updateMap st.saved_analyses topic artifact } := by
    unfold handleAnalysisSuccess setup_rag_system
    cases h with
    | inl hb =>
      simp only [contentToString, hb]
    | inr hr =>
      obtain ⟨chunks, e, hb, hre⟩ := hr
      simp only [contentToString, hb, hre]
  rw [hstep]
  refine ⟨by simp [updateMap], rfl, rfl, rfl, ?_⟩
  intro t ht
  simp [updateMap, ht]

/-- C9, witness: the theorem applied at the empty state with an empty
artifact (so RAG setup fails with EmptyArtifact), projected at a second
topic. -/
theorem rag_failure_isolation_witness :
    (handleAnalysisSuccess emptyAppState "topic A" "" failingRag).saved_analyses
        "topic A" = some "" ∧
    (handleAnalysisSuccess emptyAppState "topic A" "" failingRag).qa_chain =
      emptyAppState.qa_chain ∧
    (handleAnalysisSuccess emptyAppState "topic A" "" failingRag).saved_analyses
        "topic B" = none := by
  have h := rag_failure_isolation emptyAppState "topic A" "" failingRag (Or.inl rfl)
  exact ⟨h.1, h.2.2.1, (h.2.2.2.2 "topic B" (by decide)).trans rfl⟩

/-- C10, counterexample: a successful turn on a question containing risks,
whose backend answer contains none of the five terms, records the
backend answer verbatim, contradicting the clause that the recorded
answer is not the verbatim backend answer. -/
theorem ask_question_verbatim_counterexample :
    riskCond "What are the risks?" = true ∧
    ask_question true "What are the risks?" [] (.ok (some "All good.")) =
      [⟨"user", "What are the risks?"⟩, ⟨"assistant", "All good."⟩] := by
  decide

/-- C10, amended: for a successful turn whose question contains financial
risk or risks (case-insensitively), the recorded assistant answer is the
backend answer with every occurrence of each of the five terms replaced
by that term wrapped in the highlight span — which differs from the
verbatim answer when at least one term occurs and is exactly the verbatim
answer when none occurs; for all other questions the backend answer is
recorded verbatim. -/
theorem ask_question_risk_highlighting (q a : String) (hist : List ChatEntry) :
    (riskCond q = false →
      ask_question true q hist (.ok (some a)) =
        hist ++ [⟨"user", q⟩, ⟨"assistant", a⟩]) ∧
    (riskCond q = true →
      ask_question true q hist (.ok (some a)) =
        hist ++ [⟨"user", q⟩, ⟨"assistant", highlightTerms a⟩] ∧
      ((∃ t ∈ risks_terms, containsStr a t = true) → highlightTerms a ≠ a) ∧
      ((∀ t ∈ risks_terms, containsStr a t = false) → highlightTerms a = a)) := by
  constructor
  · intro hc
    show (hist ++ ([⟨"user", q⟩] : List ChatEntry)) ++
        [⟨"assistant", highlightAnswer q a⟩] = _
    rw [show highlightAnswer q a = a from by unfold highlightAnswer; rw [hc]; rfl]
    simp
  · intro hc
    refine ⟨?_, highlightTerms_ne a, highlightTerms_id a⟩
    show (hist ++ ([⟨"user", q⟩] : List ChatEntry)) ++
        [⟨"assistant", highlightAnswer q a⟩] = _
    rw [show highlightAnswer q a = highlightTerms a from by
      unfold highlightAnswer; rw [hc]; rfl]
    simp

/-- C10, witness: the amended theorem applied at a non-risk question, and
at a risk question whose answer contains the term risk. -/
theorem ask_question_risk_highlighting_witness :
    ask_question true "hi" [] (.ok (some "a risk")) =
      [⟨"user", "hi"⟩, ⟨"assistant", "a risk"⟩] ∧
    ask_question true "any risks?" [] (.ok (some "a risk")) =
      [⟨"user", "any risks?"⟩, ⟨"assistant", highlightTerms "a risk"⟩] ∧
    highlightTerms "a risk" ≠ "a risk" :=
  ⟨(ask_question_risk_highlighting "hi" "a risk" []).1 (by decide),
   ((ask_question_risk_highlighting "any risks?" "a risk" []).2 (by decide)).1,
   ((ask_question_risk_highlighting "any risks?" "a risk" []).2 (by decide)).2.1
     ⟨"risk", by decide, by decide⟩⟩
